import Mathlib

/-!
Verification of the Smart Task Planner application (src/app.py).

The development shallowly embeds the pure logic of the program:
the markdown-fence extraction and JSON validation inside `generate_plan`,
the four Supabase wrapper functions, and the `display_plan` renderer.
External collaborators (the Gemini model call and the Supabase client) are
modelled as explicit function parameters returning `Except`, where an
`Except.error` carries the message of a raised Python exception.

Python strings are modelled as `List Char` internally (one entry per code
point, matching Python string indexing) with `String` at the API boundary.
-/

namespace TaskPlanner

/-! ### Python string primitives -/

/-- The whitespace characters removed by Python `str.strip()` (ASCII range). -/
def pyWs : Char → Bool
  | ' ' | '\t' | '\n' | '\r' | '\x0b' | '\x0c' => true
  | _ => false

/-- Python `str.strip()` on a character list. -/
def stripChars (cs : List Char) : List Char :=
  ((cs.dropWhile pyWs).reverse.dropWhile pyWs).reverse

/-- Python `str.strip()`. -/
def pyStrip (s : String) : String := String.mk (stripChars s.toList)

/-- Test `leadsWith pat cs`: true when `pat` is an initial segment of `cs`
(Python `str.startswith`). -/
def leadsWith : List Char → List Char → Bool
  | [], _ => true
  | _ :: _, [] => false
  | p :: ps, c :: cs => p == c && leadsWith ps cs

/-- Index of the first occurrence of `pat` in `cs`, if any. -/
def findSubIn (pat : List Char) : List Char → Option Nat
  | [] => if leadsWith pat [] then some 0 else none
  | c :: t =>
    if leadsWith pat (c :: t) then some 0
    else (findSubIn pat t).map (· + 1)

/-- Python `str.find(pat, start)` restricted to `start ≥ 0`:
first occurrence index at or after `start`, as in `cs.find(pat, start)`. -/
def findSubFrom (pat cs : List Char) (start : Nat) : Option Nat :=
  (findSubIn pat (cs.drop start)).map (· + start)

/-- Python `pat in cs` for strings (substring containment). -/
def containsSub (pat cs : List Char) : Bool := (findSubIn pat cs).isSome

/-- Python slice `cs[a:b]` with a non-negative start and a possibly negative
end index: a negative `b` counts from the end of the string. -/
def pySlice (cs : List Char) (a : Nat) (b : Int) : List Char :=
  let e : Int := if b < 0 then (cs.length : Int) + b else b
  (cs.take e.toNat).drop a

/-- Python `str.split("\n")` on a character list. -/
def splitNl : List Char → List (List Char)
  | [] => [[]]
  | c :: rest =>
    if c == '\n' then [] :: splitNl rest
    else
      match splitNl rest with
      | [] => [[c]]
      | l :: ls => (c :: l) :: ls

/-- Python `"\n".join(lines)` on character lists. -/
def joinNl : List (List Char) → List Char
  | [] => []
  | [l] => l
  | l :: ls => l ++ '\n' :: joinNl ls

/-! ### JSON values (the result of Python `json.loads`)

Numbers are modelled as integers; the plans this program parses use only
integer numerals (`task_id`, `dependencies`, `duration_days`), and no claim
involves fractional or exponent parts, which the embedded parser rejects. -/

/-- A parsed JSON value; `obj` keeps Python `dict` insertion order with
later duplicate keys replacing earlier ones, as `json.loads` does. -/
inductive Json where
  | null
  | bool (flag : Bool)
  | num (value : Int)
  | str (text : String)
  | arr (items : List Json)
  | obj (fields : List (String × Json))

/-- Python `dict` assignment semantics for object members: a repeated key
overwrites the stored value in place. -/
def storeKey (k : String) (v : Json) : List (String × Json) → List (String × Json)
  | [] => [(k, v)]
  | (k0, v0) :: rest =>
    if k0 == k then (k0, v) :: rest else (k0, v0) :: storeKey k v rest

/-- Fold parsed members (in source order) into a Python `dict`. -/
def buildDict (ms : List (String × Json)) : List (String × Json) :=
  ms.foldl (fun d kv => storeKey kv.1 kv.2 d) []

/-- Whether the value is a Python `list` (`isinstance(x, list)`). -/
def Json.isArr : Json → Bool
  | .arr _ => true
  | _ => false

/-- Whether the value is a Python `dict` (a JSON mapping). -/
def Json.isObj : Json → Bool
  | .obj _ => true
  | _ => false

/-! ### A total JSON parser (Python `json.loads`)

Structural on a fuel counter, so totality is free; `json_loads` supplies
enough fuel for any input of the given length. -/

def jsonWs : Char → Bool
  | ' ' | '\t' | '\n' | '\r' => true
  | _ => false

def dropJsonWs (cs : List Char) : List Char := cs.dropWhile jsonWs

/-- Decimal digit test by code point. -/
def decDigit (c : Char) : Bool := 48 ≤ c.toNat && c.toNat ≤ 57

/-- Split off the maximal leading digit run. -/
def grabDigits : List Char → List Char × List Char
  | d :: tl =>
    if decDigit d then
      match grabDigits tl with
      | (ds, leftover) => (d :: ds, leftover)
    else ([], d :: tl)
  | [] => ([], [])

def digitsValAux : Nat → List Char → Nat
  | acc, [] => acc
  | acc, d :: ds => digitsValAux (10 * acc + (d.toNat - 48)) ds

def digitsVal (ds : List Char) : Int := (digitsValAux 0 ds : Nat)

/-- One escape character after a backslash inside a JSON string. -/
def escRepl (esc : Char) : Option Char :=
  if esc == 'n' then some '\n'
  else if esc == 't' then some '\t'
  else if esc == 'r' then some '\r'
  else if esc == 'b' then some '\x08'
  else if esc == 'f' then some '\x0c'
  else if esc == '"' || esc == '\\' || esc == '/' then some esc
  else none

/-- Body of a JSON string after the opening quote; `\u` escapes are not
modelled (no claim exercises them). -/
def scanStr (acc : List Char) : List Char → Except String (String × List Char)
  | [] => .error "Unterminated string"
  | '"' :: tl => .ok (String.mk acc.reverse, tl)
  | '\\' :: [] => .error "Unterminated string"
  | '\\' :: esc :: tl =>
    match escRepl esc with
    | some decoded => scanStr (decoded :: acc) tl
    | none => .error "Invalid escape"
  | other :: tl => scanStr (other :: acc) tl

/-- A JSON integer numeral, optionally negative. -/
def scanNum (cs : List Char) : Except String (Int × List Char) :=
  match cs with
  | '-' :: rest =>
    let (ds, r) := grabDigits rest
    if ds.isEmpty then .error "Expecting value" else .ok (-(digitsVal ds), r)
  | _ =>
    let (ds, r) := grabDigits cs
    if ds.isEmpty then .error "Expecting value" else .ok (digitsVal ds, r)

/-- Consumption of an expected literal tail, character by character. -/
def dropLit : List Char → List Char → Option (List Char)
  | [], tl => some tl
  | _ :: _, [] => none
  | x :: xs, y :: ys => if x == y then dropLit xs ys else none

mutual

def scanVal : Nat → List Char → Except String (Json × List Char)
  | 0, _ => .error "Expecting value"
  | fuel + 1, src =>
    match dropJsonWs src with
    | [] => .error "Expecting value"
    | d :: tl =>
      if d == '{' then
        match dropJsonWs tl with
        | '}' :: tl1 => .ok (.obj [], tl1)
        | tl1 =>
          match scanMembers fuel tl1 with
          | .ok (fields, tl2) => .ok (.obj (buildDict fields), tl2)
          | .error msg => .error msg
      else if d == '[' then
        match dropJsonWs tl with
        | ']' :: tl1 => .ok (.arr [], tl1)
        | tl1 =>
          match scanElems fuel tl1 with
          | .ok (items, tl2) => .ok (.arr items, tl2)
          | .error msg => .error msg
      else if d == '"' then
        match scanStr [] tl with
        | .ok (text, tl1) => .ok (.str text, tl1)
        | .error msg => .error msg
      else if d == '-' || decDigit d then
        match scanNum (d :: tl) with
        | .ok (value, tl1) => .ok (.num value, tl1)
        | .error msg => .error msg
      else if d == 'n' then
        match dropLit ("ull".toList) tl with
        | some tl1 => .ok (.null, tl1)
        | none => .error "Expecting value"
      else if d == 't' then
        match dropLit ("rue".toList) tl with
        | some tl1 => .ok (.bool true, tl1)
        | none => .error "Expecting value"
      else if d == 'f' then
        match dropLit ("alse".toList) tl with
        | some tl1 => .ok (.bool false, tl1)
        | none => .error "Expecting value"
      else .error "Expecting value"

def scanElems : Nat → List Char → Except String (List Json × List Char)
  | 0, _ => .error "Expecting value"
  | fuel + 1, src =>
    match scanVal fuel src with
    | .error msg => .error msg
    | .ok (item, tl) =>
      match dropJsonWs tl with
      | ']' :: tl1 => .ok ([item], tl1)
      | ',' :: tl1 =>
        match scanElems fuel tl1 with
        | .ok (items, tl2) => .ok (item :: items, tl2)
        | .error msg => .error msg
      | _ => .error "Expecting delimiter"

def scanMembers : Nat → List Char → Except String (List (String × Json) × List Char)
  | 0, _ => .error "Expecting value"
  | fuel + 1, src =>
    match dropJsonWs src with
    | '"' :: tl =>
      match scanStr [] tl with
      | .error msg => .error msg
      | .ok (key, tl1) =>
        match dropJsonWs tl1 with
        | ':' :: tl2 =>
          match scanVal fuel tl2 with
          | .error msg => .error msg
          | .ok (value, tl3) =>
            match dropJsonWs tl3 with
            | '}' :: tl4 => .ok ([(key, value)], tl4)
            | ',' :: tl4 =>
              match scanMembers fuel tl4 with
              | .ok (fields, tl5) => .ok ((key, value) :: fields, tl5)
              | .error msg => .error msg
            | _ => .error "Expecting delimiter"
        | _ => .error "Expecting colon delimiter"
    | _ => .error "Expecting property name"

end

/-- Python `json.loads`: parse one value and demand only whitespace after it.
On failure the error string stands for the `json.JSONDecodeError` message. -/
def json_loads (s : String) : Except String Json :=
  let cs := s.toList
  match scanVal (2 * cs.length + 2) cs with
  | .error e => .error e
  | .ok (j, rest) =>
    if (dropJsonWs rest).isEmpty then .ok j else .error "Extra data"

/-! ### Markdown fence extraction (src/app.py lines 158-173) -/

def fenceMark : List Char := "```".toList

def jsonFenceMark : List Char := "```json".toList

/-- The line scan of the generic-fence branch: toggle the in-block flag on
every line starting with a fence marker, keep the other lines seen while the
flag is set (the loop at src/app.py lines 164-172). -/
def keepFenced : List (List Char) → Bool → List (List Char)
  | [], _ => []
  | l :: ls, inBlock =>
    if leadsWith fenceMark l then keepFenced ls (!inBlock)
    else if inBlock then l :: keepFenced ls inBlock
    else keepFenced ls inBlock

/-- The fence-stripping heuristic applied to the (already stripped) response
text: the `"```json" in text` branch slices between the markers with Python
`find` (whose miss value -1 feeds the slice end), the `startswith("```")`
branch scans line by line, and otherwise the text passes through. -/
def extract_candidate (t : List Char) : List Char :=
  if containsSub jsonFenceMark t then
    let start := (findSubFrom jsonFenceMark t 0).getD 0 + 7
    let stop : Int :=
      match findSubFrom fenceMark t start with
      | some i => (i : Int)
      | none => -1
    stripChars (pySlice t start stop)
  else if leadsWith fenceMark t then
    stripChars (joinNl (keepFenced (splitNl t) false))
  else t

/-! ### Validation (src/app.py lines 175-183)

Python `"plan" in plan_json` and `plan_json["plan"]` are partial on the
values `json.loads` can return: membership iterates dict keys, list
elements, or string substrings, and raises `TypeError` on the scalar types;
subscripting by a string works only on a dict. `Except.error` carries the
exception message. -/

/-- Python `"plan" in plan_json`. -/
def memPlan (j : Json) : Except String Bool :=
  match j with
  | .obj ms => .ok (ms.any (fun kv => kv.1 == "plan"))
  | .arr es => .ok (es.any (fun x => match x with | .str s => s == "plan" | _ => false))
  | .str s => .ok (containsSub "plan".toList s.toList)
  | .num _ => .error "argument of type \x27int\x27 is not iterable"
  | .bool _ => .error "argument of type \x27bool\x27 is not iterable"
  | .null => .error "argument of type \x27NoneType\x27 is not iterable"

/-- Python `plan_json["plan"]`. -/
def getPlan (j : Json) : Except String Json :=
  match j with
  | .obj ms =>
    match ms.find? (fun kv => kv.1 == "plan") with
    | some kv => .ok kv.2
    | none => .error "KeyError: \x27plan\x27"
  | .arr _ => .error "list indices must be integers or slices, not str"
  | .str _ => .error "string indices must be integers"
  | .num _ => .error "\x27int\x27 object is not subscriptable"
  | .bool _ => .error "\x27bool\x27 object is not subscriptable"
  | .null => .error "\x27NoneType\x27 object is not subscriptable"

/-! ### generate_plan (src/app.py lines 108-187) -/

/-- The value `generate_plan` returns: either the parsed plan structure
unchanged, or an error dictionary with an `error` message and an optional
`raw` field. -/
inductive GenResult where
  | plan (j : Json)
  | failure (msg : String) (raw : Option String)

/-- The prompt template of src/app.py lines 113-139 with the goal inserted. -/
def build_prompt (goal : String) : String :=
  "\nYou are an expert project manager AI. Your task is to break down the user\x27s goal into a structured action plan.\nGoal: \"" ++ goal ++
  "\"\n\nReturn ONLY a valid JSON object with this exact structure:\n\x7b\n  \"plan\": [\n    \x7b\n      \"task_id\": 1,\n      \"task_name\": \"Task name here\",\n      \"description\": \"Detailed description here\",\n      \"dependencies\": [],\n      \"duration_days\": 5\n    \x7d\n  ]\n\x7d\n\nRules:\n- task_id: integer starting from 1\n- task_name: concise string\n- description: detailed string\n- dependencies: array of task_id integers (empty array if none)\n- duration_days: integer\n\nProvide a complete, logical breakdown of the goal into sequential tasks.\nReturn ONLY the JSON, no other text or markdown formatting.\n"

/-- Lines 156-183: strip the response text, run the fence heuristic, parse,
and validate; a `TypeError` raised by the membership test or the subscript
escapes to the enclosing handler of line 185, which formats it as an error
occurring while calling the AI model (and attaches no raw text). -/
def handle_response_text (text : String) : GenResult :=
  let t := stripChars text.toList
  let candidate := String.mk (extract_candidate t)
  match json_loads candidate with
  | .error je => .failure ("AI failed to return valid JSON: " ++ je) (some candidate)
  | .ok plan_json =>
    match memPlan plan_json with
    | .error te => .failure ("An error occurred while calling the AI model: " ++ te) none
    | .ok false => .failure "AI returned JSON in an unexpected format." (some candidate)
    | .ok true =>
      match getPlan plan_json with
      | .error te => .failure ("An error occurred while calling the AI model: " ++ te) none
      | .ok v =>
        if v.isArr then .plan plan_json
        else .failure "AI returned JSON in an unexpected format." (some candidate)

/-- The body of the `try` block of lines 141-183: `call` is the model
invocation (construction, generation, and `response.text` access), whose
exception message lands in the handler of line 185. -/
def run_model (call : String → Except String String) (prompt : String) : GenResult :=
  match call prompt with
  | .error e => .failure ("An error occurred while calling the AI model: " ++ e) none
  | .ok text => handle_response_text text

/-- Model of `generate_plan(goal, model_name)` with the AI collaborator abstracted as
`call`: an empty goal fails immediately (line 110), otherwise the prompt is
built and the model invoked. -/
def generate_plan (call : String → Except String String) (goal : String) : GenResult :=
  if goal = "" then .failure "Goal cannot be empty." none
  else run_model call (build_prompt goal)

/-! ### Database wrappers (src/app.py lines 53-102)

Each wrapper takes its Supabase call chain as a function returning the
`execute()` result (whose `data` field lists the affected rows as JSON
dictionaries) or the message of a raised exception. -/

/-- The object returned by `execute()` on a Supabase query. -/
structure ExecResult where
  data : List Json

/-- The dictionary each wrapper returns: a `success` flag with optional
`data` and `error` entries. -/
structure DbResult where
  success : Bool
  data : Option (List Json) := none
  error : Option String := none

/-- The row dictionary built at src/app.py lines 56-60. -/
def insertPayload (goal : String) (model_name : String) (plan_json : Json) : Json :=
  .obj [("goal", .str goal), ("model_used", .str model_name), ("plan_json", plan_json)]

/-- Model of `save_plan_to_db(goal, model_name, plan_json)`. -/
def save_plan_to_db (insertExec : Json → Except String ExecResult)
    (goal : String) (model_name : String) (plan_json : Json) : DbResult :=
  match insertExec (insertPayload goal model_name plan_json) with
  | .ok result => { success := true, data := some result.data }
  | .error e => { success := false, error := some e }

/-- Model of `get_recent_plans(limit)` (the Python parameter defaults to 10). -/
def get_recent_plans (selectExec : Nat → Except String ExecResult) (limit : Nat) : DbResult :=
  match selectExec limit with
  | .ok result => { success := true, data := some result.data }
  | .error e => { success := false, error := some e }

/-- Model of `search_plans_by_goal(search_term)`: the term is wrapped in `%` wildcards
for the case-insensitive `ilike` filter before reaching the store. -/
def search_plans_by_goal (searchExec : String → Except String ExecResult)
    (search_term : String) : DbResult :=
  match searchExec ("%" ++ search_term ++ "%") with
  | .ok result => { success := true, data := some result.data }
  | .error e => { success := false, error := some e }

/-- Model of `delete_plan(plan_id)`: the `execute()` result is discarded and the
success dictionary carries no data. -/
def delete_plan (deleteExec : String → Except String ExecResult) (plan_id : String) : DbResult :=
  match deleteExec plan_id with
  | .ok _ => { success := true }
  | .error e => { success := false, error := some e }

/-! ### display_plan (src/app.py lines 190-208) -/

/-- A task dictionary as consumed by `display_plan`; every field the code
reads with `.get` is optional. -/
structure Task where
  task_id : Option Int := none
  task_name : Option String := none
  description : Option String := none
  dependencies : Option (List Int) := none
  duration_days : Option Int := none

/-- The sort key of line 197: `x.get("task_id", 0)`. -/
def sort_key (t : Task) : Int := t.task_id.getD 0

/-- Model of `sorted(tasks, key=...)`: Python sorted is stable, so the stable merge
sort models it. -/
def sorted_tasks (ts : List Task) : List Task :=
  ts.mergeSort (fun a b => decide (sort_key a ≤ sort_key b))

/-- Model of `task.get("task_id", "?")` as it appears inside the f-string. -/
def render_id (t : Task) : String :=
  match t.task_id with
  | some i => toString i
  | none => "?"

/-- Model of `task.get("duration_days", "?")` as it appears inside the f-string. -/
def render_duration (t : Task) : String :=
  match t.duration_days with
  | some d => toString d
  | none => "?"

/-- Line 204: the dependency ids joined by a comma and space, or the literal
`"None"` when the list defaulted to empty or is empty. -/
def deps_str (t : Task) : String :=
  let dependencies := t.dependencies.getD []
  if dependencies.isEmpty then "None"
  else String.intercalate ", " (dependencies.map toString)

/-- The three rendered strings for one task (lines 206-208). -/
structure TaskRender where
  header : String
  description : String
  dependencies : String

/-- One task's rendering. -/
def render_task (t : Task) : TaskRender :=
  { header := "**Task " ++ render_id t ++ ": " ++ t.task_name.getD "Unnamed Task"
      ++ "** (" ++ render_duration t ++ " days)"
    description := "**Description:** " ++ t.description.getD "No description provided."
    dependencies := "**Dependencies:** Task(s) " ++ deps_str t }

/-- What `display_plan` shows: the empty-plan warning, or the tasks rendered
in sorted order. -/
inductive DisplayOut where
  | emptyWarning
  | rendered (rows : List TaskRender)

/-- Model of `display_plan(tasks)`. -/
def display_plan (tasks : List Task) : DisplayOut :=
  if tasks.isEmpty then .emptyWarning
  else .rendered ((sorted_tasks tasks).map render_task)

/-! ### Characterisation of the string search and the fence scan

These lemmas tie the executable search functions to positional occurrence
statements, so the claim theorems can speak about "the first occurrence"
directly. -/

/-- Occurrence of `pat` at character position `i` of `cs`. -/
def occursAt (pat cs : List Char) (i : Nat) : Prop :=
  leadsWith pat (cs.drop i) = true

instance (pat cs : List Char) (i : Nat) : Decidable (occursAt pat cs i) := by
  unfold occursAt
  infer_instance

theorem occursAt_succ (pat : List Char) (c : Char) (t : List Char) (j : Nat) :
    occursAt pat (c :: t) (j + 1) ↔ occursAt pat t j := by
  simp [occursAt]

/-- Specification of `findSubIn`: Python `find` returns the least position at
which the pattern occurs. -/
theorem findSubIn_eq_some_iff (pat : List Char) :
    ∀ (cs : List Char) (i : Nat),
      findSubIn pat cs = some i ↔
        (occursAt pat cs i ∧ ∀ j, j < i → ¬ occursAt pat cs j) := by
  intro cs
  induction cs with
  | nil =>
    intro i
    by_cases h : leadsWith pat [] = true
    · simp only [findSubIn, h, if_true, Option.some.injEq]
      constructor
      · rintro rfl
        exact ⟨h, fun j hj => absurd hj (Nat.not_lt_zero j)⟩
      · rintro ⟨-, hmin⟩
        by_contra hne
        have hpos : 0 < i := Nat.pos_of_ne_zero (fun h0 => hne h0.symm)
        exact hmin 0 hpos h
    · simp only [findSubIn, h, if_false]
      constructor
      · intro hc
        exact absurd hc (by simp)
      · rintro ⟨hocc, -⟩
        have : leadsWith pat (List.drop i []) = true := hocc
        rw [List.drop_nil] at this
        exact absurd this h
  | cons c t ih =>
    intro i
    by_cases h : leadsWith pat (c :: t) = true
    · simp only [findSubIn, h, if_true, Option.some.injEq]
      constructor
      · rintro rfl
        exact ⟨h, fun j hj => absurd hj (Nat.not_lt_zero j)⟩
      · rintro ⟨-, hmin⟩
        by_contra hne
        have hpos : 0 < i := Nat.pos_of_ne_zero (fun h0 => hne h0.symm)
        exact hmin 0 hpos h
    · simp only [findSubIn, h, if_false]
      constructor
      · intro hmap
        obtain ⟨k, hk, hki⟩ := Option.map_eq_some'.mp hmap
        obtain ⟨hocc, hmin⟩ := (ih k).mp hk
        subst hki
        refine ⟨(occursAt_succ pat c t k).mpr hocc, ?_⟩
        intro j hj
        cases j with
        | zero => exact fun hc => h hc
        | succ j' =>
          intro hc
          exact hmin j' (by omega) ((occursAt_succ pat c t j').mp hc)
      · rintro ⟨hocc, hmin⟩
        cases i with
        | zero => exact absurd hocc h
        | succ i' =>
          have hk : findSubIn pat t = some i' := by
            refine (ih i').mpr ⟨(occursAt_succ pat c t i').mp hocc, ?_⟩
            intro j hj hc
            exact hmin (j + 1) (by omega) ((occursAt_succ pat c t j).mpr hc)
          simp [hk]

/-- Specification of a failed `findSubIn`: no occurrence anywhere. -/
theorem findSubIn_eq_none_iff (pat cs : List Char) :
    findSubIn pat cs = none ↔ ∀ j, ¬ occursAt pat cs j := by
  constructor
  · intro hn j hj
    have hex : ∃ k, occursAt pat cs k := ⟨j, hj⟩
    have hfind : findSubIn pat cs = some (Nat.find hex) :=
      (findSubIn_eq_some_iff pat cs (Nat.find hex)).mpr
        ⟨Nat.find_spec hex, fun k hk => Nat.find_min hex hk⟩
    rw [hn] at hfind
    exact Option.noConfusion hfind
  · intro hall
    cases hf : findSubIn pat cs with
    | none => rfl
    | some i => exact absurd ((findSubIn_eq_some_iff pat cs i).mp hf).1 (hall i)

theorem occursAt_drop (pat cs : List Char) (s k : Nat) :
    occursAt pat (cs.drop s) k ↔ occursAt pat cs (s + k) := by
  unfold occursAt
  rw [List.drop_drop]

/-- Specification of `findSubFrom`: Python `find(pat, start)` returns the
least occurrence position at or after `start`. -/
theorem findSubFrom_eq_some_iff (pat cs : List Char) (s i : Nat) :
    findSubFrom pat cs s = some i ↔
      (s ≤ i ∧ occursAt pat cs i ∧
        ∀ j, s ≤ j → j < i → ¬ occursAt pat cs j) := by
  unfold findSubFrom
  constructor
  · intro h
    obtain ⟨k, hk, hki⟩ := Option.map_eq_some'.mp h
    obtain ⟨hocc, hmin⟩ := (findSubIn_eq_some_iff pat (cs.drop s) k).mp hk
    subst hki
    refine ⟨by omega, ?_, ?_⟩
    · have := (occursAt_drop pat cs s k).mp hocc
      rwa [Nat.add_comm s k] at this
    · intro j hsj hji hc
      have hj' : occursAt pat (cs.drop s) (j - s) := by
        rw [occursAt_drop pat cs s (j - s)]
        have : s + (j - s) = j := by omega
        rwa [this]
      exact hmin (j - s) (by omega) hj'
  · rintro ⟨hsi, hocc, hmin⟩
    have hk : findSubIn pat (cs.drop s) = some (i - s) := by
      refine (findSubIn_eq_some_iff pat (cs.drop s) (i - s)).mpr ⟨?_, ?_⟩
      · rw [occursAt_drop pat cs s (i - s)]
        have : s + (i - s) = i := by omega
        rwa [this]
      · intro j hj hc
        have hocc' := (occursAt_drop pat cs s j).mp hc
        exact hmin (s + j) (by omega) (by omega) hocc'
    rw [hk]
    simp only [Option.map_some']
    congr 1
    omega

/-- Specification of a failed `findSubFrom`: no occurrence at or after the
start position. -/
theorem findSubFrom_eq_none_iff (pat cs : List Char) (s : Nat) :
    findSubFrom pat cs s = none ↔ ∀ j, s ≤ j → ¬ occursAt pat cs j := by
  unfold findSubFrom
  rw [Option.map_eq_none']
  rw [findSubIn_eq_none_iff]
  constructor
  · intro hall j hsj hc
    have : occursAt pat (cs.drop s) (j - s) := by
      rw [occursAt_drop pat cs s (j - s)]
      have : s + (j - s) = j := by omega
      rwa [this]
    exact hall (j - s) this
  · intro hall k hc
    exact hall (s + k) (by omega) ((occursAt_drop pat cs s k).mp hc)

theorem containsSub_eq_true_iff (pat cs : List Char) :
    containsSub pat cs = true ↔ ∃ j, occursAt pat cs j := by
  constructor
  · intro h
    cases hf : findSubIn pat cs with
    | none =>
      rw [containsSub, hf] at h
      exact absurd h (by simp)
    | some i => exact ⟨i, ((findSubIn_eq_some_iff pat cs i).mp hf).1⟩
  · rintro ⟨j, hj⟩
    cases hf : findSubIn pat cs with
    | none => exact absurd hj ((findSubIn_eq_none_iff pat cs).mp hf j)
    | some i =>
      rw [containsSub, hf]
      rfl

/-- Occurrences of a nonempty pattern lie strictly inside the string. -/
theorem occursAt_length_le (pat cs : List Char) (j : Nat)
    (hpat : pat ≠ []) (hj : cs.length ≤ j) : ¬ occursAt pat cs j := by
  intro hc
  have hdrop : cs.drop j = [] := List.drop_eq_nil_of_le hj
  rw [occursAt, hdrop] at hc
  cases pat with
  | nil => exact hpat rfl
  | cons p ps => exact absurd hc (by simp [leadsWith])

/-- Position-by-position record of the generic-fence scan: each line paired
with the value the in-block flag has when the line is considered. -/
def fenceFlagged : List (List Char) → Bool → List (List Char × Bool)
  | [], _ => []
  | l :: ls, b =>
    if leadsWith fenceMark l then (l, !b) :: fenceFlagged ls (!b)
    else (l, b) :: fenceFlagged ls b

/-- The scan loop keeps exactly the non-fence lines whose flag is set. -/
theorem keepFenced_eq_filter :
    ∀ (ls : List (List Char)) (b : Bool),
      keepFenced ls b =
        ((fenceFlagged ls b).filter
          (fun p => !leadsWith fenceMark p.1 && p.2)).map Prod.fst := by
  intro ls
  induction ls with
  | nil => intro b; rfl
  | cons l ls ih =>
    intro b
    by_cases h : leadsWith fenceMark l = true
    · simp [keepFenced, fenceFlagged, h, ih]
    · have h' : leadsWith fenceMark l = false := by
        cases hb : leadsWith fenceMark l
        · rfl
        · exact absurd hb h
      cases b <;> simp [keepFenced, fenceFlagged, h', ih]

/-! ### Claim theorems -/

/-- C1: whenever the response text contains the opening marker close-fenced
later, the extractor keeps exactly the stripped substring between the end of
the first opening marker (its 7 characters) and the first subsequent closing
fence, and on the raw text with a fenced empty plan the whole of
`generate_plan` returns the parsed structure with key `plan` and an empty
list. -/
theorem json_fence_extraction :
    (∀ (t : List Char) (p q : Nat),
        occursAt jsonFenceMark t p →
        (∀ j, j < p → ¬ occursAt jsonFenceMark t j) →
        p + 7 ≤ q →
        occursAt fenceMark t q →
        (∀ j, j < q → p + 7 ≤ j → ¬ occursAt fenceMark t j) →
        extract_candidate t = stripChars (pySlice t (p + 7) (q : Int)))
    ∧ generate_plan (fun _ => .ok "```json\n\x7b\"plan\":[]\x7d\n```") "g"
        = .plan (.obj [("plan", .arr [])]) := by
  constructor
  · intro t p q h1 h1m hpq h2 h2m
    have hin : findSubIn jsonFenceMark t = some p :=
      (findSubIn_eq_some_iff jsonFenceMark t p).mpr ⟨h1, h1m⟩
    have hc : containsSub jsonFenceMark t = true := by
      rw [containsSub, hin]; rfl
    have hf0 : findSubFrom jsonFenceMark t 0 = some p := by
      simp [findSubFrom, hin]
    have hf2 : findSubFrom fenceMark t (p + 7) = some q :=
      (findSubFrom_eq_some_iff fenceMark t (p + 7) q).mpr
        ⟨hpq, h2, fun j ha hb => h2m j hb ha⟩
    unfold extract_candidate
    simp [hc, hf0, hf2]
  · rfl

/-- C8: when the opening `json` fence has no closing fence after it, the
`find` miss value -1 becomes the slice end, so the candidate is the stripped
substring from past the opening marker up to but excluding the last
character of the text; concretely the unterminated fenced plan loses its
final brace. -/
theorem missing_close_fence_slice :
    (∀ (t : List Char) (p : Nat),
        occursAt jsonFenceMark t p →
        (∀ j, j < p → ¬ occursAt jsonFenceMark t j) →
        (∀ j, j < t.length → p + 7 ≤ j → ¬ occursAt fenceMark t j) →
        extract_candidate t = stripChars ((t.take (t.length - 1)).drop (p + 7)))
    ∧ String.mk (extract_candidate ("```json\n\x7b\"plan\":[]\x7d".toList))
        = "\x7b\"plan\":[]" := by
  constructor
  · intro t p h1 h1m h2m
    have hin : findSubIn jsonFenceMark t = some p :=
      (findSubIn_eq_some_iff jsonFenceMark t p).mpr ⟨h1, h1m⟩
    have hc : containsSub jsonFenceMark t = true := by
      rw [containsSub, hin]; rfl
    have hf0 : findSubFrom jsonFenceMark t 0 = some p := by
      simp [findSubFrom, hin]
    have hnone : findSubFrom fenceMark t (p + 7) = none := by
      refine (findSubFrom_eq_none_iff fenceMark t (p + 7)).mpr ?_
      intro j hj hocc
      by_cases hlen : j < t.length
      · exact h2m j hlen hj hocc
      · exact occursAt_length_le fenceMark t j (by decide) (by omega) hocc
    have hps : pySlice t (p + 7) (-1) = (t.take (t.length - 1)).drop (p + 7) := by
      have he : ((-1 : Int) < 0) := by norm_num
      have htn : ((t.length : Int) + (-1)).toNat = t.length - 1 := by omega
      simp only [pySlice]
      rw [if_pos he, htn]
    unfold extract_candidate
    simp [hc, hf0, hnone, hps]
  · rfl

set_option maxRecDepth 8000 in
/-- C5: without a `json` tag but with a leading generic fence, the extractor
splits into lines, toggles the in-block flag at every fence-marker line, and
keeps exactly the non-fence lines carrying a set flag, rejoined by newlines
and stripped; concretely a generically fenced one-task plan parses through
`generate_plan`. -/
theorem generic_fence_line_scan :
    (∀ t : List Char,
        (∀ j, j < t.length → ¬ occursAt jsonFenceMark t j) →
        leadsWith fenceMark t = true →
        extract_candidate t =
          stripChars (joinNl (((fenceFlagged (splitNl t) false).filter
            (fun p => !leadsWith fenceMark p.1 && p.2)).map Prod.fst)))
    ∧ generate_plan
        (fun _ => .ok "```\n\x7b\"plan\":[\x7b\"task_id\":1,\"task_name\":\"a\",\"description\":\"b\",\"dependencies\":[],\"duration_days\":5\x7d]\x7d\n```")
        "g"
        = .plan (.obj [("plan", .arr [.obj [("task_id", .num 1),
            ("task_name", .str "a"), ("description", .str "b"),
            ("dependencies", .arr []), ("duration_days", .num 5)]])]) := by
  constructor
  · intro t hno hstart
    have hnone : findSubIn jsonFenceMark t = none := by
      refine (findSubIn_eq_none_iff jsonFenceMark t).mpr ?_
      intro j hocc
      by_cases hlen : j < t.length
      · exact hno j hlen hocc
      · exact occursAt_length_le jsonFenceMark t j (by decide) (by omega) hocc
    have hc : containsSub jsonFenceMark t = false := by
      rw [containsSub, hnone]; rfl
    unfold extract_candidate
    simp [hc, hstart, keepFenced_eq_filter]
  · rfl

/-- Witness for C1 at the fenced empty-plan text: the opening marker sits at
position 0 and the closing fence at position 20. -/
theorem json_fence_extraction_inst :
    extract_candidate ("```json\n\x7b\"plan\":[]\x7d\n```".toList)
      = stripChars (pySlice ("```json\n\x7b\"plan\":[]\x7d\n```".toList) (0 + 7) (20 : Int)) :=
  json_fence_extraction.1 _ 0 20 (by decide) (by decide) (by decide) (by decide) (by decide)

/-- Witness for C8 at the unterminated fenced plan text. -/
theorem missing_close_fence_slice_inst :
    extract_candidate ("```json\n\x7b\"plan\":[]\x7d".toList)
      = stripChars ((("```json\n\x7b\"plan\":[]\x7d".toList).take
          (("```json\n\x7b\"plan\":[]\x7d".toList).length - 1)).drop (0 + 7)) :=
  missing_close_fence_slice.1 _ 0 (by decide) (by decide) (by decide)

/-- Witness for C5 at a small generically fenced text. -/
theorem generic_fence_line_scan_inst :
    extract_candidate ("```\nx\n```".toList)
      = stripChars (joinNl (((fenceFlagged (splitNl ("```\nx\n```".toList)) false).filter
          (fun p => !leadsWith fenceMark p.1 && p.2)).map Prod.fst)) :=
  generic_fence_line_scan.1 _ (by decide) (by decide)

/-- C6: an empty goal produces the empty-goal error record, with the same
result whatever the model collaborator would answer (so the model is never
consulted), and a non-empty goal reaches the model through the built
prompt. -/
theorem empty_goal_short_circuit :
    (∀ call : String → Except String String,
        generate_plan call "" = .failure "Goal cannot be empty." none)
    ∧ (∀ call call2 : String → Except String String,
        generate_plan call "" = generate_plan call2 "")
    ∧ (∀ (call : String → Except String String) (goal : String),
        goal ≠ "" →
        generate_plan call goal = run_model call (build_prompt goal)) := by
  refine ⟨fun call => rfl, fun c1 c2 => rfl, fun call goal hg => ?_⟩
  unfold generate_plan
  rw [if_neg hg]

/-- Witness for C6 at the goal "g". -/
theorem empty_goal_short_circuit_inst :
    generate_plan (fun _ => .ok "[]") "g"
      = run_model (fun _ => .ok "[]") (build_prompt "g") :=
  empty_goal_short_circuit.2.2 _ "g" (by decide)

/-- C4: each of the four persistence wrappers turns a raised exception into
a record with `success := false` and the message as the error string (it is
a total function, so nothing propagates), and a successful remote call into
a record with `success := true`. -/
theorem db_ops_wrap_exceptions :
    (∀ (insertExec : Json → Except String ExecResult) (goal model_name : String)
        (plan_json : Json) (e : String),
        insertExec (insertPayload goal model_name plan_json) = .error e →
        save_plan_to_db insertExec goal model_name plan_json
          = { success := false, error := some e })
    ∧ (∀ (insertExec : Json → Except String ExecResult) (goal model_name : String)
        (plan_json : Json) (r : ExecResult),
        insertExec (insertPayload goal model_name plan_json) = .ok r →
        save_plan_to_db insertExec goal model_name plan_json
          = { success := true, data := some r.data })
    ∧ (∀ (selectExec : Nat → Except String ExecResult) (limit : Nat) (e : String),
        selectExec limit = .error e →
        get_recent_plans selectExec limit = { success := false, error := some e })
    ∧ (∀ (selectExec : Nat → Except String ExecResult) (limit : Nat) (r : ExecResult),
        selectExec limit = .ok r →
        get_recent_plans selectExec limit = { success := true, data := some r.data })
    ∧ (∀ (searchExec : String → Except String ExecResult) (search_term e : String),
        searchExec ("%" ++ search_term ++ "%") = .error e →
        search_plans_by_goal searchExec search_term
          = { success := false, error := some e })
    ∧ (∀ (searchExec : String → Except String ExecResult) (search_term : String)
        (r : ExecResult),
        searchExec ("%" ++ search_term ++ "%") = .ok r →
        search_plans_by_goal searchExec search_term
          = { success := true, data := some r.data })
    ∧ (∀ (deleteExec : String → Except String ExecResult) (plan_id e : String),
        deleteExec plan_id = .error e →
        delete_plan deleteExec plan_id = { success := false, error := some e })
    ∧ (∀ (deleteExec : String → Except String ExecResult) (plan_id : String)
        (r : ExecResult),
        deleteExec plan_id = .ok r →
        delete_plan deleteExec plan_id = { success := true }) := by
  exact ⟨by intro f g m p e h; unfold save_plan_to_db; rw [h],
    by intro f g m p r h; unfold save_plan_to_db; rw [h],
    by intro f l e h; unfold get_recent_plans; rw [h],
    by intro f l r h; unfold get_recent_plans; rw [h],
    by intro f s e h; unfold search_plans_by_goal; rw [h],
    by intro f s r h; unfold search_plans_by_goal; rw [h],
    by intro f i e h; unfold delete_plan; rw [h],
    by intro f i r h; unfold delete_plan; rw [h]⟩

/-- Witness for C4: one failing and one succeeding remote call for each kind
of operation. -/
theorem db_ops_wrap_exceptions_inst :
    save_plan_to_db (fun _ => .error "boom") "g" "m" .null
      = { success := false, error := some "boom" }
    ∧ save_plan_to_db (fun _ => .ok ⟨[]⟩) "g" "m" .null
      = { success := true, data := some [] }
    ∧ get_recent_plans (fun _ => .error "boom") 20
      = { success := false, error := some "boom" }
    ∧ get_recent_plans (fun _ => .ok ⟨[]⟩) 20 = { success := true, data := some [] }
    ∧ search_plans_by_goal (fun _ => .error "boom") "q"
      = { success := false, error := some "boom" }
    ∧ search_plans_by_goal (fun _ => .ok ⟨[]⟩) "q"
      = { success := true, data := some [] }
    ∧ delete_plan (fun _ => .error "boom") "id1"
      = { success := false, error := some "boom" }
    ∧ delete_plan (fun _ => .ok ⟨[]⟩) "id1" = { success := true } :=
  ⟨db_ops_wrap_exceptions.1 _ "g" "m" .null "boom" rfl,
   db_ops_wrap_exceptions.2.1 _ "g" "m" .null ⟨[]⟩ rfl,
   db_ops_wrap_exceptions.2.2.1 _ 20 "boom" rfl,
   db_ops_wrap_exceptions.2.2.2.1 _ 20 ⟨[]⟩ rfl,
   db_ops_wrap_exceptions.2.2.2.2.1 _ "q" "boom" rfl,
   db_ops_wrap_exceptions.2.2.2.2.2.1 _ "q" ⟨[]⟩ rfl,
   db_ops_wrap_exceptions.2.2.2.2.2.2.1 _ "id1" "boom" rfl,
   db_ops_wrap_exceptions.2.2.2.2.2.2.2 _ "id1" ⟨[]⟩ rfl⟩

/-- C10: whenever the remote delete call returns without raising - whatever
rows it reports deleted, including none - `delete_plan` answers the bare
success record, with no data about what was deleted. -/
theorem delete_success_no_data :
    ∀ (deleteExec : String → Except String ExecResult) (plan_id : String)
      (r : ExecResult),
      deleteExec plan_id = .ok r →
      delete_plan deleteExec plan_id
        = { success := true, data := none, error := none } := by
  intro f pid r h
  unfold delete_plan
  rw [h]

/-- Witness for C10: deleting an identifier the store does not hold (the
remote call reports zero affected rows) still yields plain success. -/
theorem delete_success_no_data_inst :
    delete_plan (fun _ => .ok ⟨[]⟩) "missing-id"
      = { success := true, data := none, error := none } :=
  delete_success_no_data _ "missing-id" ⟨[]⟩ rfl

/-- Counterexample to C2 as stated: the candidate "5" parses as JSON and its
top-level value has no key `plan` mapping to a list, yet `generate_plan`
does not return the "unexpected format" failure - the membership test raises
and the outer handler answers with the model-call error and no raw field. -/
theorem unexpected_format_counterexample :
    json_loads "5" = .ok (.num 5)
    ∧ generate_plan (fun _ => .ok "5") "g"
        = .failure "An error occurred while calling the AI model: argument of type \x27int\x27 is not iterable" none
    ∧ GenResult.failure "An error occurred while calling the AI model: argument of type \x27int\x27 is not iterable" none
        ≠ GenResult.failure "AI returned JSON in an unexpected format." (some "5") := by
  refine ⟨rfl, rfl, ?_⟩
  intro h
  injection h with h1 h2
  exact Option.noConfusion h2

/-- C2 amended: when the extracted candidate parses to a mapping, a missing
`plan` key or a `plan` value that is not a list yields the "unexpected
format" failure carrying the candidate (post-extraction) text under `raw`,
and a `plan` key holding a list makes `generate_plan` return the parsed
structure unchanged. -/
theorem unexpected_format_on_mapping :
    ∀ (call : String → Except String String) (goal raw : String)
      (ms : List (String × Json)),
      goal ≠ "" →
      call (build_prompt goal) = .ok raw →
      json_loads (String.mk (extract_candidate (stripChars raw.toList)))
        = .ok (.obj ms) →
      ((ms.find? (fun q => q.1 == "plan") = none →
          generate_plan call goal
            = .failure "AI returned JSON in an unexpected format."
                (some (String.mk (extract_candidate (stripChars raw.toList)))))
        ∧ (∀ kv, ms.find? (fun q => q.1 == "plan") = some kv →
            kv.2.isArr = false →
            generate_plan call goal
              = .failure "AI returned JSON in an unexpected format."
                  (some (String.mk (extract_candidate (stripChars raw.toList)))))
        ∧ (∀ kv, ms.find? (fun q => q.1 == "plan") = some kv →
            kv.2.isArr = true →
            generate_plan call goal = .plan (.obj ms))) := by
  intro call goal raw ms hg hc hj
  have hgen : generate_plan call goal = handle_response_text raw := by
    unfold generate_plan run_model
    rw [if_neg hg, hc]
  refine ⟨?_, ?_, ?_⟩
  · intro hfind
    have hany : ms.any (fun q => q.1 == "plan") = false := by
      cases hb : ms.any (fun q => q.1 == "plan")
      · rfl
      · exfalso
        obtain ⟨x, hx, hpx⟩ := List.any_eq_true.mp hb
        exact absurd hpx (by simpa using List.find?_eq_none.mp hfind x hx)
    have hmem : memPlan (.obj ms) = .ok false := by
      simp [memPlan, hany]
    rw [hgen]
    simp only [handle_response_text]
    rw [hj]
    simp [hmem]
  · intro kv hfind harr
    have hp := List.find?_some hfind
    have hany : ms.any (fun q => q.1 == "plan") = true :=
      List.any_eq_true.mpr ⟨kv, List.mem_of_find?_eq_some hfind, by simpa using hp⟩
    have hmem : memPlan (.obj ms) = .ok true := by
      simp [memPlan, hany]
    have hget : getPlan (.obj ms) = .ok kv.2 := by
      simp [getPlan, hfind]
    rw [hgen]
    simp only [handle_response_text]
    rw [hj]
    simp [hmem, hget, harr]
  · intro kv hfind harr
    have hp := List.find?_some hfind
    have hany : ms.any (fun q => q.1 == "plan") = true :=
      List.any_eq_true.mpr ⟨kv, List.mem_of_find?_eq_some hfind, by simpa using hp⟩
    have hmem : memPlan (.obj ms) = .ok true := by
      simp [memPlan, hany]
    have hget : getPlan (.obj ms) = .ok kv.2 := by
      simp [getPlan, hfind]
    rw [hgen]
    simp only [handle_response_text]
    rw [hj]
    simp [hmem, hget, harr]

/-- Witness for amended C2 at the wrong-top-level-key example. -/
theorem unexpected_format_on_mapping_inst :
    generate_plan (fun _ => .ok "\x7b\"tasks\": []\x7d") "g"
      = .failure "AI returned JSON in an unexpected format."
          (some (String.mk (extract_candidate
            (stripChars ("\x7b\"tasks\": []\x7d" : String).toList)))) :=
  (unexpected_format_on_mapping _ "g" "\x7b\"tasks\": []\x7d" [("tasks", .arr [])]
    (by decide) rfl rfl).1 rfl

/-- Counterexample to C3 as stated: for a fence-wrapped unparsable response
the attached `raw` field holds the fence-stripped candidate, not the
original raw text unchanged. -/
theorem invalid_json_raw_counterexample :
    generate_plan (fun _ => .ok "```json\nnot json\n```") "g"
      = .failure "AI failed to return valid JSON: Expecting value" (some "not json")
    ∧ ("not json" : String) ≠ "```json\nnot json\n```" :=
  ⟨rfl, by decide⟩

/-- C3 amended: when the extracted candidate fails to parse, the failure is
tagged invalid JSON, includes the parser error detail, and attaches the
candidate (post-extraction) text under `raw`; for the raw text "not json"
the attached text equals "not json". -/
theorem invalid_json_reports_candidate :
    (∀ (call : String → Except String String) (goal raw je : String),
        goal ≠ "" →
        call (build_prompt goal) = .ok raw →
        json_loads (String.mk (extract_candidate (stripChars raw.toList)))
          = .error je →
        generate_plan call goal
          = .failure ("AI failed to return valid JSON: " ++ je)
              (some (String.mk (extract_candidate (stripChars raw.toList)))))
    ∧ generate_plan (fun _ => .ok "not json") "g"
        = .failure "AI failed to return valid JSON: Expecting value"
            (some "not json") := by
  constructor
  · intro call goal raw je hg hc hj
    have hgen : generate_plan call goal = handle_response_text raw := by
      unfold generate_plan run_model
      rw [if_neg hg, hc]
    rw [hgen]
    simp only [handle_response_text]
    rw [hj]
  · rfl

/-- Witness for amended C3 at the raw text "not json". -/
theorem invalid_json_reports_candidate_inst :
    generate_plan (fun _ => .ok "not json") "g"
      = .failure ("AI failed to return valid JSON: " ++ "Expecting value")
          (some (String.mk (extract_candidate
            (stripChars ("not json" : String).toList)))) :=
  invalid_json_reports_candidate.1 _ "g" "not json" "Expecting value"
    (by decide) rfl rfl

/-- Counterexample to C9 as stated: the candidate "[]" parses to a top-level
value that is not a mapping, yet the membership test does not raise - a list
supports `in` - so the result is the "unexpected format" failure carrying a
raw field, not the model-call error. -/
theorem membership_on_list_counterexample :
    json_loads "[]" = .ok (.arr [])
    ∧ Json.isObj (.arr []) = false
    ∧ generate_plan (fun _ => .ok "[]") "g"
        = .failure "AI returned JSON in an unexpected format." (some "[]") :=
  ⟨rfl, rfl, rfl⟩

/-- C9 amended: when the candidate parses to a scalar top level - a number,
boolean, or null, the types with no membership protocol - the key test
raises `TypeError`, the outer handler catches it, and the failure is tagged
as an error while calling the AI model, with no raw field. -/
theorem non_iterable_typeerror :
    ∀ (call : String → Except String String) (goal raw : String) (j : Json),
      goal ≠ "" →
      call (build_prompt goal) = .ok raw →
      json_loads (String.mk (extract_candidate (stripChars raw.toList))) = .ok j →
      ((∀ n : Int, j = .num n →
          generate_plan call goal
            = .failure "An error occurred while calling the AI model: argument of type \x27int\x27 is not iterable" none)
        ∧ (∀ b : Bool, j = .bool b →
          generate_plan call goal
            = .failure "An error occurred while calling the AI model: argument of type \x27bool\x27 is not iterable" none)
        ∧ (j = .null →
          generate_plan call goal
            = .failure "An error occurred while calling the AI model: argument of type \x27NoneType\x27 is not iterable" none)) := by
  intro call goal raw j hg hc hj
  have hgen : generate_plan call goal = handle_response_text raw := by
    unfold generate_plan run_model
    rw [if_neg hg, hc]
  refine ⟨?_, ?_, ?_⟩
  · intro n hn
    subst hn
    rw [hgen]
    simp only [handle_response_text]
    rw [hj]
    simp [memPlan]
  · intro b hb
    subst hb
    rw [hgen]
    simp only [handle_response_text]
    rw [hj]
    simp [memPlan]
  · intro hnull
    subst hnull
    rw [hgen]
    simp only [handle_response_text]
    rw [hj]
    simp [memPlan]

/-- Witness for amended C9 at the scalar response "5". -/
theorem non_iterable_typeerror_inst :
    generate_plan (fun _ => .ok "5") "g"
      = .failure "An error occurred while calling the AI model: argument of type \x27int\x27 is not iterable" none :=
  (non_iterable_typeerror _ "g" "5" (.num 5) (by decide) rfl rfl).1 5 rfl

unseal List.merge List.mergeSort in
/-- C7: the display renders the tasks in ascending `task_id` order (a
missing id counts as 0): the rendered sequence is sorted by the key and is a
permutation of the input; the dependency line joins the ids with a comma
and space, or shows the literal None for a missing or empty list; and the
ids [3,1,2] come out in the order [1,2,3]. -/
theorem display_sorted_rendering :
    (∀ ts : List Task,
        List.Pairwise (fun a b => sort_key a ≤ sort_key b) (sorted_tasks ts))
    ∧ (∀ ts : List Task, (sorted_tasks ts).Perm ts)
    ∧ (∀ t : Task, t.dependencies.getD [] = [] → deps_str t = "None")
    ∧ (∀ (t : Task) (l : List Int), t.dependencies = some l → l ≠ [] →
        deps_str t = String.intercalate ", " (l.map toString))
    ∧ display_plan
        [{ task_id := some 3, task_name := some "c" },
         { task_id := some 1, task_name := some "a" },
         { task_id := some 2, task_name := some "b" }]
        = .rendered
            [render_task { task_id := some 1, task_name := some "a" },
             render_task { task_id := some 2, task_name := some "b" },
             render_task { task_id := some 3, task_name := some "c" }]
    ∧ deps_str { dependencies := some [1, 2] } = "1, 2"
    ∧ deps_str {} = "None" := by
  refine ⟨?_, ?_, ?_, ?_, rfl, rfl, rfl⟩
  · intro ts
    have h := @List.sorted_mergeSort Task
      (fun a b => decide (sort_key a ≤ sort_key b))
      (fun a b c h1 h2 => by
        simp only [decide_eq_true_eq] at h1 h2 ⊢
        omega)
      (fun a b => by
        simp only [Bool.or_eq_true, decide_eq_true_eq]
        omega)
      ts
    exact h.imp (fun hab => by simpa using hab)
  · intro ts
    exact List.mergeSort_perm ts _
  · intro t h
    simp [deps_str, h]
  · intro t l hd hne
    have hie : l.isEmpty = false := by
      cases l with
      | nil => exact absurd rfl hne
      | cons x xs => rfl
    simp [deps_str, hd, hie]

/-- Witness for C7: the dependency renderings at a two-element list and at
an explicitly empty list. -/
theorem display_sorted_rendering_inst :
    deps_str { dependencies := some [1, 2] }
      = String.intercalate ", " ([(1 : Int), 2].map toString)
    ∧ deps_str { dependencies := some ([] : List Int) } = "None" :=
  ⟨display_sorted_rendering.2.2.2.1 _ [1, 2] rfl (by decide),
   display_sorted_rendering.2.2.1 _ rfl⟩

end TaskPlanner
